import Mathlib

/-!
Verification development for the bitrise-io/steps-nuget-restore step
(`src/main.go`).  The Go program is shallowly embedded: external effects
(environment lookups, the filesystem walk, the HTTP transport, child-process
execution, the cache-commit collaborator) are passed in as explicit oracles,
and the control flow of each Go function is translated line by line.
-/

/-- The string constant `cacheEnvGlobal = "NUGET_PACKAGES"` from `main.go`. -/
def cacheEnvGlobal : String := "NUGET_PACKAGES"

/-- The string constant `cacheEnvHTTP = "NUGET_HTTP_CACHE_PATH"` from `main.go`. -/
def cacheEnvHTTP : String := "NUGET_HTTP_CACHE_PATH"

/-- The fixed pre-installed system NuGet path assigned to `nuGetPth` in `main`. -/
def nuGetPth : String := "/Library/Frameworks/Mono.framework/Versions/Current/bin/nuget"

/-- Modelled from the spec: `constants.MonoPath` comes from the external
`go-xamarin` dependency (the interpreter path used to run a downloaded
`nuget.exe`); its exact value is not claim-relevant, only that it is the
interpreter prefix of the invocation. -/
def monoPath : String := "/Library/Frameworks/Mono.framework/Versions/Current/bin/mono"

/-- A directory tree as seen by `filepath.Walk`: each entry is a file or a
directory with a list of children, visited in list order. -/
inductive FsEntry where
  | file : String → FsEntry
  | dir : String → List FsEntry → FsEntry

/-- The base name of an entry, i.e. what `f.Name()` returns in the walk callback. -/
def FsEntry.name : FsEntry → String
  | .file n => n
  | .dir n _ => n

mutual

/-- The `filepath.Walk` traversal with the callback of `collectLocalCaches`:
visiting a directory named `packages` records its path and returns `io.EOF`,
which aborts the whole walk; any other entry continues the walk.  The result
is the list of recorded paths together with a flag telling whether the walk
was stopped by `io.EOF`. -/
def walkEntry : String → FsEntry → List String × Bool
  | _, .file _ => ([], false)
  | p, .dir n cs =>
    if n = "packages" then ([p], true)
    else walkList p cs

/-- Walks the children of a directory at path `p` in order, stopping as soon
as one of them raises the `io.EOF` stop signal. -/
def walkList : String → List FsEntry → List String × Bool
  | _, [] => ([], false)
  | p, c :: rest =>
    let r := walkEntry (p ++ "/" ++ FsEntry.name c) c
    if r.2 then r
    else
      let r2 := walkList p rest
      (r.1 ++ r2.1, r2.2)

end

mutual

/-- Modelled from the spec: the natural-language characterisation of the walk,
"the first directory (in walk order) named exactly `packages`".  This is the
spec-side definition, to be compared with the source-side `walkEntry`. -/
def specFirstPackagesDir : String → FsEntry → Option String
  | _, .file _ => none
  | p, .dir n cs =>
    if n = "packages" then some p
    else specFirstInChildren p cs

/-- Spec-side helper: the first `packages` directory among the children, in order. -/
def specFirstInChildren : String → List FsEntry → Option String
  | _, [] => none
  | p, c :: rest =>
    match specFirstPackagesDir (p ++ "/" ++ FsEntry.name c) c with
    | some q => some q
    | none => specFirstInChildren p rest

end

mutual

/-- Whether any directory named `packages` occurs anywhere in the tree
(the root included). -/
def hasPackagesDir : FsEntry → Bool
  | .file _ => false
  | .dir n cs => n = "packages" || hasPackagesList cs

/-- Whether any directory named `packages` occurs in any of the trees. -/
def hasPackagesList : List FsEntry → Bool
  | [] => false
  | c :: rest => hasPackagesDir c || hasPackagesList rest

end

/-- The filesystem as seen by `collectLocalCaches`: either the walk visits a
concrete tree, or the walk itself fails with an I/O error (which is distinct
from the deliberate `io.EOF` stop signal). -/
inductive WalkFs where
  | ok : FsEntry → WalkFs
  | err : String → WalkFs

/-- The two filesystem effects of `collectLocalCaches`: the result of
`filepath.Abs(basePth)` and the walk of the resulting root. -/
structure LocalFsEnv where
  absResult : Except String String
  fs : WalkFs

/-- `collectLocalCaches` from `main.go`: resolve the absolute project root
(failure is an error), walk it collecting `packages` directories; a walk error
other than `io.EOF` is an error, `io.EOF` itself is treated as success.
Returns the collected paths and the error, if any. -/
def collectLocalCaches (e : LocalFsEnv) : List String × Option String :=
  match e.absResult with
  | .error _ =>
    ([], some "cache collection skipped: failed to determine project root path")
  | .ok absRoot =>
    match e.fs with
    | .err m =>
      ([], some ("cache collection skipped: failed to determine cache paths. Error: " ++ m))
    | .ok root => ((walkEntry absRoot root).1, none)

/-- `collectGlobalCaches` from `main.go`: the `NUGET_PACKAGES` environment
variable when non-empty, else the fixed default under the user home
directory.  `genv` models `os.Getenv` (empty string when unset). -/
def collectGlobalCaches (genv : String → String) (home : String) : String :=
  if genv cacheEnvGlobal ≠ "" then genv cacheEnvGlobal
  else home ++ "/.nuget/packages"

/-- `HTTPCachePath` from `main.go`: the `NUGET_HTTP_CACHE_PATH` environment
variable when non-empty, else the fixed default under the user home directory. -/
def HTTPCachePath (genv : String → String) (home : String) : String :=
  if genv cacheEnvHTTP ≠ "" then genv cacheEnvHTTP
  else home ++ "/.local/share/NuGet/v3-cache"

/-- `collectHTTPCaches` from `main.go`: returns the HTTP cache path when it
exists on disk, the empty string otherwise; an existence-check error is
logged and treated as non-existence.  `pathExists` models
`pathutil.IsPathExists` (`none` = the check itself failed). -/
def collectHTTPCaches (genv : String → String) (home : String)
    (pathExists : String → Option Bool) : String :=
  let p := HTTPCachePath genv home
  match pathExists p with
  | some true => p
  | some false => ""
  | none => ""

/-- The observable outcome of `collectCaches`: the paths passed to
`cache.IncludePath`, the warning logged when local-cache collection failed,
whether `Commit` was invoked, and the error returned by `Commit` (which is
what `collectCaches` itself returns to `main`). -/
structure CacheOutcome where
  included : List String
  localWarning : Option String
  committed : Bool
  commitError : Option String
deriving DecidableEq, Repr

/-- `collectCaches` from `main.go`: switch over the cache level.  `none`
returns immediately without committing; `local`/`all` collect local caches,
logging a warning on error and continuing; `global`/`all` include the global
cache path unconditionally; every branch except `none` ends in
`nuGetCache.Commit()`, whose outcome is the oracle `commitRes`. -/
def collectCaches (genv : String → String) (home : String) (lfs : LocalFsEnv)
    (commitRes : Option String) (cacheLevel : String) : CacheOutcome :=
  if cacheLevel = "none" then
    ⟨[], none, false, none⟩
  else if cacheLevel = "local" then
    let r := collectLocalCaches lfs
    ⟨r.1, r.2, true, commitRes⟩
  else if cacheLevel = "global" then
    ⟨[collectGlobalCaches genv home], none, true, commitRes⟩
  else if cacheLevel = "all" then
    let r := collectLocalCaches lfs
    ⟨r.1 ++ [collectGlobalCaches genv home], r.2, true, commitRes⟩
  else
    ⟨[], none, true, commitRes⟩

/-- Pointwise update of an environment, used to state that a variable is
never consulted. -/
def updateEnv (genv : String → String) (key v : String) : String → String :=
  fun k => if k = key then v else genv k

/-- Modelled from the spec: the bounded-retry combinator of the external
`go-utils/retry` dependency, as used via `retry.Times(retries).Try(op)` —
"executes the operation at least once; if it fails and attempts remain,
retry; returns the error from the final attempt if all attempts are
exhausted; returns success as soon as any attempt succeeds".  `attempt` is
the 0-based attempt index passed to the operation; the second component of
the result counts the attempts actually made. -/
def retryGo (op : Nat → Except String Unit) : Nat → Nat → Except String Unit × Nat
  | attempt, remaining =>
    match op attempt with
    | .ok _ => (.ok (), attempt + 1)
    | .error e =>
      match remaining with
      | 0 => (.error e, attempt + 1)
      | r + 1 => retryGo op (attempt + 1) r

/-- `retry.Times(retries).Try(op)`: run `op` with up to `retries` extra
attempts beyond the first.  Returns the final outcome and the number of
attempts made. -/
def retryTry (retries : Nat) (op : Nat → Except String Unit) : Except String Unit × Nat :=
  retryGo op 0 retries

/-- The transport response of `http.Get`, reduced to what `DownloadFile`
inspects: the status code. -/
structure HttpResponse where
  statusCode : Nat
deriving DecidableEq, Repr

/-- The effects of one `DownloadFile` call: the result of `os.Create`, of
`http.Get`, and of `io.Copy` (were the body to be copied). -/
structure DownloadEnv where
  create : Except String Unit
  get : Except String HttpResponse
  copy : Except String Unit

/-- `DownloadFile` from `main.go`: create/truncate the target (failure is an
error), issue the GET (transport failure is an error), reject any status
other than 200 before copying, then stream the body (copy failure is an
error). -/
def DownloadFile (downloadURL targetPath : String) (e : DownloadEnv) : Except String Unit :=
  match e.create with
  | .error m => .error ("failed to create (" ++ targetPath ++ "), error: " ++ m)
  | .ok _ =>
    match e.get with
    | .error m => .error ("failed to download from (" ++ downloadURL ++ "), error: " ++ m)
    | .ok resp =>
      if resp.statusCode ≠ 200 then
        .error ("request failed, status code: " ++ toString resp.statusCode)
      else
        match e.copy with
        | .error m => .error ("failed to download from (" ++ downloadURL ++ "), error: " ++ m)
        | .ok _ => .ok ()

/-- The download URL built by `downloadNuGet`: the `latest` channel, or the
version prefixed with `v` substituted into the versioned template. -/
def nuGetURL (version : String) : String :=
  "https://dist.nuget.org/win-x86-commandline/"
    ++ (if version = "latest" then version else "v" ++ version) ++ "/nuget.exe"

/-- All external effects of one run of the step, passed to the embedded
`main`.  `download n` is the outcome of the `DownloadFile` call on (0-based)
attempt `n`; `restoreRun n` is the outcome of `cmd.Run()` on attempt `n`. -/
structure Effects where
  tmpDir : Except String String
  download : Nat → Except String Unit
  restoreRun : Nat → Except String Unit
  genv : String → String
  home : String
  lfs : LocalFsEnv
  commitRes : Option String

/-- `downloadNuGet` from `main.go`: create a temp dir (failure is an error),
then try `DownloadFile` under `retry.Times(1)`.  Returns the download path on
success together with the number of download attempts made. -/
def downloadNuGet (e : Effects) : Except String String × Nat :=
  match e.tmpDir with
  | .error m => (.error ("failed to create tmp dir, error: " ++ m), 0)
  | .ok tmpDir =>
    match retryTry 1 e.download with
    | (.ok _, n) => (.ok (tmpDir ++ "/nuget.exe"), n)
    | (.error m, n) => (.error m, n)

/-- `runRestoreCommand` from `main.go`: run the restore child process under
`retry.Times(1)`.  Returns the final outcome and the number of attempts. -/
def runRestoreCommand (e : Effects) : Except String Unit × Nat :=
  retryTry 1 e.restoreRun

/-- The observable outcome of one run of `main`: the fatal error (if the
process exited via `fail`), the number of `DownloadFile` calls, the argument
vector handed to `runRestoreCommand` (`none` when the pipeline aborted before
restore), the number of restore attempts, and the cache-collection outcome
(`none` when the pipeline aborted before cache collection). -/
structure MainOutcome where
  fatal : Option String
  downloadCalls : Nat
  restoreArgs : Option (List String)
  restoreCalls : Nat
  cache : Option CacheOutcome

/-- The tail of `main` after tool resolution: run the restore command with
the resolved invocation followed by `restore` and the solution path, then
collect caches. -/
def runMainRestore (toolArgs : List String) (solution cacheLevel : String)
    (e : Effects) (dlCalls : Nat) : MainOutcome :=
  let args := toolArgs ++ ["restore", solution]
  match runRestoreCommand e with
  | (.error m, rc) => ⟨some ("NuGet restore failed, error: " ++ m), dlCalls, some args, rc, none⟩
  | (.ok _, rc) =>
    ⟨none, dlCalls, some args, rc,
      some (collectCaches e.genv e.home e.lfs e.commitRes cacheLevel)⟩

/-- `main` from `main.go`: resolve the tool invocation (the fixed system
binary for an empty version, otherwise mono plus the downloaded binary, with
a fatal error when the download fails), append `restore` and the solution
path, run the restore command (fatal on failure), then collect caches
(warnings only, never fatal). -/
def runMain (version solution cacheLevel : String) (e : Effects) : MainOutcome :=
  if version = "" then
    runMainRestore [nuGetPth] solution cacheLevel e 0
  else
    match downloadNuGet e with
    | (.error m, n) => ⟨some m, n, none, 0, none⟩
    | (.ok downloadPth, n) => runMainRestore [monoPath, downloadPth] solution cacheLevel e n

mutual

/-- The walk of `collectLocalCaches` collects exactly the first directory
named `packages` in walk order (when one exists), and the `io.EOF` stop
signal is raised exactly when one was found. -/
theorem walkEntry_eq_spec (p : String) (e : FsEntry) :
    walkEntry p e
      = ((specFirstPackagesDir p e).toList, (specFirstPackagesDir p e).isSome) := by
  cases e with
  | file n => simp [walkEntry, specFirstPackagesDir]
  | dir n cs =>
    by_cases h : n = "packages"
    · simp [walkEntry, specFirstPackagesDir, h]
    · simp [walkEntry, specFirstPackagesDir, h, walkList_eq_spec p cs]

/-- List version of `walkEntry_eq_spec`. -/
theorem walkList_eq_spec (p : String) (cs : List FsEntry) :
    walkList p cs
      = ((specFirstInChildren p cs).toList, (specFirstInChildren p cs).isSome) := by
  cases cs with
  | nil => simp [walkList, specFirstInChildren]
  | cons c rest =>
    rw [walkList, specFirstInChildren, walkEntry_eq_spec (p ++ "/" ++ FsEntry.name c) c,
      walkList_eq_spec p rest]
    cases hq : specFirstPackagesDir (p ++ "/" ++ FsEntry.name c) c <;> simp [hq]

end

mutual

/-- The spec-side first match exists exactly when some directory named
`packages` occurs in the tree. -/
theorem specFirst_isSome_eq_has (p : String) (e : FsEntry) :
    (specFirstPackagesDir p e).isSome = hasPackagesDir e := by
  cases e with
  | file n => simp [specFirstPackagesDir, hasPackagesDir]
  | dir n cs =>
    by_cases h : n = "packages"
    · simp [specFirstPackagesDir, hasPackagesDir, h]
    · simp [specFirstPackagesDir, hasPackagesDir, h,
        specFirstChildren_isSome_eq_has p cs]

/-- List version of `specFirst_isSome_eq_has`. -/
theorem specFirstChildren_isSome_eq_has (p : String) (cs : List FsEntry) :
    (specFirstInChildren p cs).isSome = hasPackagesList cs := by
  cases cs with
  | nil => simp [specFirstInChildren, hasPackagesList]
  | cons c rest =>
    rw [specFirstInChildren, hasPackagesList,
      ← specFirst_isSome_eq_has (p ++ "/" ++ FsEntry.name c) c,
      ← specFirstChildren_isSome_eq_has p rest]
    cases hq : specFirstPackagesDir (p ++ "/" ++ FsEntry.name c) c <;> simp [hq]

end

/-- C4: for `cacheLevel=local`, the collected entry set is exactly the first
directory in walk order named `packages` (whose subtree the spec-side
characterisation does not descend into); when no directory named `packages`
exists anywhere under the root, the result is the empty set with no error;
and on a tree containing `root/sub/packages/x.txt` the result is exactly the
single entry `root/sub/packages`. -/
theorem local_cache_first_packages :
    (∀ genv home commitRes absRoot root,
       collectCaches genv home ⟨Except.ok absRoot, WalkFs.ok root⟩ commitRes "local"
         = ⟨(specFirstPackagesDir absRoot root).toList, none, true, commitRes⟩)
    ∧ (∀ genv home commitRes absRoot root, hasPackagesDir root = false →
       collectCaches genv home ⟨Except.ok absRoot, WalkFs.ok root⟩ commitRes "local"
         = ⟨[], none, true, commitRes⟩)
    ∧ (∀ genv home commitRes,
       collectCaches genv home
         ⟨Except.ok "/root",
          WalkFs.ok (.dir "root" [.dir "sub" [.dir "packages" [.file "x.txt"]]])⟩
         commitRes "local"
         = ⟨["/root/sub/packages"], none, true, commitRes⟩) := by
  refine ⟨fun genv home commitRes absRoot root => ?_,
    fun genv home commitRes absRoot root h => ?_,
    fun genv home commitRes => ?_⟩
  · simp [collectCaches, collectLocalCaches, walkEntry_eq_spec]
  · have hs : specFirstPackagesDir absRoot root = none := by
      have := specFirst_isSome_eq_has absRoot root
      rw [h] at this
      exact Option.not_isSome_iff_eq_none.mp (by simp [this])
    simp [collectCaches, collectLocalCaches, walkEntry_eq_spec, hs]
  · rfl

/-- C4 witness: the no-`packages` branch at a concrete tree. -/
theorem local_cache_first_packages_witness :
    collectCaches (fun _ => "") "/Users/u" ⟨Except.ok "/r", WalkFs.ok (.dir "r" [.file "a.txt"])⟩
      none "local" = ⟨[], none, true, none⟩ :=
  local_cache_first_packages.2.1 (fun _ => "") "/Users/u" none "/r"
    (.dir "r" [.file "a.txt"]) (by rfl)

/-- C10: `collectLocalCaches` never returns more than one path — the
`io.EOF` signal raised on the first `packages` directory terminates the whole
traversal, so a second `packages` directory elsewhere in the tree is never
collected; on a tree with two sibling `packages` directories only the first
in walk order is returned. -/
theorem local_caches_at_most_one :
    (∀ lfs : LocalFsEnv, (collectLocalCaches lfs).1.length ≤ 1)
    ∧ collectLocalCaches ⟨Except.ok "/proj",
        WalkFs.ok (.dir "proj" [.dir "a" [.dir "packages" []],
                                .dir "b" [.dir "packages" []]])⟩
      = (["/proj/a/packages"], none) := by
  constructor
  · intro lfs
    rcases lfs with ⟨absResult, fs⟩
    cases absResult with
    | error m => simp [collectLocalCaches]
    | ok absRoot =>
      cases fs with
      | err m => simp [collectLocalCaches]
      | ok root =>
        simp only [collectLocalCaches, walkEntry_eq_spec]
        cases specFirstPackagesDir absRoot root <;> simp
  · rfl

/-- C9: for `cacheLevel=none`, `collectCaches` returns immediately with the
empty cache set and no error, without invoking `Commit` and independently of
every environment and filesystem oracle (no filesystem access). -/
theorem cache_level_none_empty (genv : String → String) (home : String)
    (lfs : LocalFsEnv) (commitRes : Option String) :
    collectCaches genv home lfs commitRes "none" = ⟨[], none, false, none⟩ := by
  rfl

/-- C7: for `cacheLevel=global`, exactly one directory is resolved — the
value of `NUGET_PACKAGES` when non-empty, else the fixed default under the
user home directory — and it is included unconditionally, independently of
the filesystem oracle (no existence check); with the variable set to
`/custom/path` the result is exactly that path. -/
theorem global_cache_env_override :
    (∀ genv home lfs commitRes,
       collectCaches genv home lfs commitRes "global"
         = ⟨[collectGlobalCaches genv home], none, true, commitRes⟩)
    ∧ (∀ (genv : String → String) home, genv cacheEnvGlobal ≠ "" →
       collectGlobalCaches genv home = genv cacheEnvGlobal)
    ∧ (∀ (genv : String → String) home, genv cacheEnvGlobal = "" →
       collectGlobalCaches genv home = home ++ "/.nuget/packages")
    ∧ (∀ home lfs commitRes,
       (collectCaches (fun k => if k = cacheEnvGlobal then "/custom/path" else "")
          home lfs commitRes "global").included = ["/custom/path"]) := by
  refine ⟨fun genv home lfs commitRes => rfl,
    fun genv home h => ?_, fun genv home h => ?_,
    fun home lfs commitRes => ?_⟩
  · simp [collectGlobalCaches, h]
  · simp [collectGlobalCaches, h]
  · rfl

/-- C7 witness: the env-override branch at a concrete environment. -/
theorem global_cache_env_override_witness :
    collectGlobalCaches (fun k => if k = cacheEnvGlobal then "/custom/path" else "")
      "/Users/u" = "/custom/path" :=
  global_cache_env_override.2.1
    (fun k => if k = cacheEnvGlobal then "/custom/path" else "") "/Users/u"
    (by decide)

/-- Changing only the HTTP-cache environment variable never changes the
global cache path: `collectGlobalCaches` reads only `NUGET_PACKAGES`. -/
theorem collectGlobalCaches_updateEnv_http (genv : String → String)
    (home v : String) :
    collectGlobalCaches (updateEnv genv cacheEnvHTTP v) home
      = collectGlobalCaches genv home := by
  simp [collectGlobalCaches, updateEnv, cacheEnvGlobal, cacheEnvHTTP]

/-- C2 counterexample: at the concrete cache level `all` (and with the HTTP
cache variable set), the collector output is unchanged when the HTTP-cache
environment variable changes — the variable is not consulted — and the
HTTP-cache path never appears among the included entries, even though
`HTTPCachePath` would have resolved it. -/
theorem httpCache_claim_counterexample :
    (collectCaches (fun k => if k = cacheEnvHTTP then "/http/a" else "")
        "/Users/u" ⟨Except.ok "/r", WalkFs.ok (.dir "r" [])⟩ none "all"
      = collectCaches (fun k => if k = cacheEnvHTTP then "/http/b" else "")
        "/Users/u" ⟨Except.ok "/r", WalkFs.ok (.dir "r" [])⟩ none "all")
    ∧ "/http/a" ∉ (collectCaches (fun k => if k = cacheEnvHTTP then "/http/a" else "")
        "/Users/u" ⟨Except.ok "/r", WalkFs.ok (.dir "r" [])⟩ none "all").included
    ∧ HTTPCachePath (fun k => if k = cacheEnvHTTP then "/http/a" else "") "/Users/u"
        = "/http/a" := by
  refine ⟨rfl, ?_, rfl⟩
  decide

/-- C2 amended: `HTTPCachePath` does consult the HTTP-cache environment
variable with the fixed home-directory fallback, but `collectCaches` never
invokes it: for every cache level the collector output is independent of that
variable, and the only environment variable it consults is the
global-package-cache one (through `collectGlobalCaches`). -/
theorem httpCache_never_consulted :
    (∀ genv home lfs commitRes cacheLevel v,
       collectCaches (updateEnv genv cacheEnvHTTP v) home lfs commitRes cacheLevel
         = collectCaches genv home lfs commitRes cacheLevel)
    ∧ (∀ (genv : String → String) home,
       HTTPCachePath genv home
         = if genv cacheEnvHTTP ≠ "" then genv cacheEnvHTTP
           else home ++ "/.local/share/NuGet/v3-cache")
    ∧ (∀ genv home lfs commitRes,
       (collectCaches genv home lfs commitRes "global").included
         = [collectGlobalCaches genv home]) := by
  refine ⟨fun genv home lfs commitRes cacheLevel v => ?_,
    fun genv home => rfl, fun genv home lfs commitRes => rfl⟩
  simp only [collectCaches, collectGlobalCaches_updateEnv_http]

/-- C3: under `retry.Times(1)` — two attempts total — an operation that
fails on attempt 0 and succeeds on attempt 1 yields success after exactly two
attempts, the first failure discarded; an operation that fails on both
attempts yields the error of the second attempt after exactly two attempts. -/
theorem retry_two_attempts (op : Nat → Except String Unit) (e0 e1 : String) :
    (op 0 = .error e0 → op 1 = .ok () → retryTry 1 op = (.ok (), 2))
    ∧ (op 0 = .error e0 → op 1 = .error e1 → retryTry 1 op = (.error e1, 2)) := by
  constructor <;> intro h0 h1 <;> simp [retryTry, retryGo, h0, h1]

/-- A concrete operation failing on attempt 0 and succeeding afterwards. -/
def opFailThenOk : Nat → Except String Unit :=
  fun n => if n = 0 then .error "boom" else .ok ()

/-- A concrete operation failing on every attempt, with attempt-labelled errors. -/
def opAlwaysFail : Nat → Except String Unit :=
  fun n => .error ("fail " ++ toString n)

/-- C3 witness: both retry branches at concrete operations. -/
theorem retry_two_attempts_witness :
    retryTry 1 opFailThenOk = (.ok (), 2)
    ∧ retryTry 1 opAlwaysFail = (.error "fail 1", 2) :=
  ⟨(retry_two_attempts opFailThenOk "boom" "x").1 rfl rfl,
   (retry_two_attempts opAlwaysFail "fail 0" "fail 1").2 rfl rfl⟩

/-- C8: `DownloadFile` returns an error — never success — whenever the
transport response carries any status other than 200, whatever the copy
outcome (even a successful body copy): there is no partial-success result. -/
theorem download_non_success_status_error (downloadURL targetPath : String)
    (e : DownloadEnv) (resp : HttpResponse) (hget : e.get = .ok resp)
    (hstatus : resp.statusCode ≠ 200) :
    DownloadFile downloadURL targetPath e ≠ .ok () := by
  unfold DownloadFile
  cases hc : e.create with
  | error m => simp
  | ok u => rw [hget]; simp [hstatus]

/-- C8 witness: a 404 response with every other effect succeeding. -/
theorem download_non_success_status_error_witness :
    DownloadFile "http://u" "/t" ⟨.ok (), .ok ⟨404⟩, .ok ()⟩ ≠ .ok () :=
  download_non_success_status_error "http://u" "/t" ⟨.ok (), .ok ⟨404⟩, .ok ()⟩
    ⟨404⟩ rfl (by decide)

/-- C5: with an empty tool version, no download is attempted (no network
call) and the restore child process is invoked with argument vector exactly
`[systemToolPath, "restore", solutionPath]`, the fixed system binary path
unchanged. -/
theorem empty_version_system_invocation (solution cacheLevel : String) (e : Effects) :
    (runMain "" solution cacheLevel e).downloadCalls = 0
    ∧ (runMain "" solution cacheLevel e).restoreArgs
        = some [nuGetPth, "restore", solution] := by
  unfold runMain runMainRestore
  simp only [if_pos rfl]
  cases h : runRestoreCommand e with
  | mk r rc => cases r <;> simp

/-- C6: with a non-empty tool version whose download fails on both retry
attempts, the pipeline terminates with a fatal acquisition error and the
restore command is never attempted — no restore child process is started and
cache collection is never reached. -/
theorem download_failure_fatal_no_restore (version solution cacheLevel : String)
    (e : Effects) (m0 m1 : String) (hver : version ≠ "")
    (h0 : e.download 0 = .error m0) (h1 : e.download 1 = .error m1) :
    ((runMain version solution cacheLevel e).fatal).isSome = true
    ∧ (runMain version solution cacheLevel e).restoreArgs = none
    ∧ (runMain version solution cacheLevel e).restoreCalls = 0
    ∧ (runMain version solution cacheLevel e).cache = none := by
  unfold runMain
  rw [if_neg hver]
  unfold downloadNuGet
  cases ht : e.tmpDir with
  | error m => simp
  | ok td => simp [retryTry, retryGo, h0, h1]

/-- Concrete effects for the C6 witness: the temp dir is created but every
download attempt fails. -/
def effC6 : Effects :=
  ⟨.ok "/tmp/x", fun n => .error ("dl " ++ toString n), fun _ => .ok (),
   fun _ => "", "/Users/u", ⟨.ok "/r", WalkFs.ok (.dir "r" [])⟩, none⟩

/-- C6 witness: version `9.9.9` with both download attempts failing. -/
theorem download_failure_fatal_no_restore_witness :
    ((runMain "9.9.9" "a.sln" "none" effC6).fatal).isSome = true
    ∧ (runMain "9.9.9" "a.sln" "none" effC6).restoreArgs = none
    ∧ (runMain "9.9.9" "a.sln" "none" effC6).restoreCalls = 0
    ∧ (runMain "9.9.9" "a.sln" "none" effC6).cache = none :=
  download_failure_fatal_no_restore "9.9.9" "a.sln" "none" effC6 "dl 0" "dl 1"
    (by decide) rfl rfl

/-- C1: for cache level `local` or `all`, a failed absolute-path resolution
or a walk failure other than the deliberate `io.EOF` stop signal makes the
collector record a collection warning, and — the restore having succeeded —
the pipeline still completes with no fatal error. -/
theorem collect_error_nonfatal (solution cacheLevel : String) (e : Effects)
    (hlvl : cacheLevel = "local" ∨ cacheLevel = "all")
    (herr : (∃ m, e.lfs.absResult = Except.error m) ∨ ∃ m, e.lfs.fs = WalkFs.err m)
    (hrestore : e.restoreRun 0 = Except.ok ()) :
    (runMain "" solution cacheLevel e).fatal = none
    ∧ ∃ c, (runMain "" solution cacheLevel e).cache = some c
        ∧ c.localWarning.isSome = true := by
  have hw : ((collectLocalCaches e.lfs).2).isSome = true := by
    rcases herr with ⟨m, hm⟩ | ⟨m, hm⟩
    · simp [collectLocalCaches, hm]
    · cases ha : e.lfs.absResult with
      | error m2 => simp [collectLocalCaches, ha]
      | ok root => simp [collectLocalCaches, ha, hm]
  have hr : retryTry 1 e.restoreRun = (.ok (), 1) := by
    simp [retryTry, retryGo, hrestore]
  unfold runMain runMainRestore runRestoreCommand
  rw [if_pos rfl, hr]
  refine ⟨rfl, collectCaches e.genv e.home e.lfs e.commitRes cacheLevel, rfl, ?_⟩
  rcases hlvl with h | h <;> subst h <;> simpa [collectCaches] using hw

/-- Concrete effects for the C1 witness: restore succeeds, but the absolute
project-root resolution fails. -/
def effC1 : Effects :=
  ⟨.ok "/tmp/x", fun _ => .ok (), fun _ => .ok (), fun _ => "", "/Users/u",
   ⟨.error "EACCES", WalkFs.ok (.dir "r" [])⟩, none⟩

/-- C1 witness: cache level `local` with a failing path resolution and a
succeeding restore. -/
theorem collect_error_nonfatal_witness :
    (runMain "" "a.sln" "local" effC1).fatal = none
    ∧ ∃ c, (runMain "" "a.sln" "local" effC1).cache = some c
        ∧ c.localWarning.isSome = true :=
  collect_error_nonfatal "a.sln" "local" effC1 (Or.inl rfl)
    (Or.inl ⟨"EACCES", rfl⟩) rfl
